import Mathlib

/-!
Shallow embedding of the `pythonindepth` demonstration repository and proofs
of its specification claims.

Conventions used throughout:
* Python side effects (the `run`/`print` calls) are modelled as a trace of
  the command strings, in execution order.
* A raised Python exception is modelled by the `PyOutcome.exc` constructor
  carrying a message; `Except String` models functions that may raise.
* Python machine-level values: `float`/`int` arguments that flow into
  `range` membership are modelled as `ℚ` (the inputs in the examples are
  exact decimals), Python `int` as `Int`/`Nat`, `str` as `String`.
-/

/-! ### Effect model for the scoped-resource components
(`contextlib_sample.py`, `context_manager_sample.py`, `context_decorator.py`) -/

/-- Outcome of executing a Python statement block: normal completion or a
raised exception carrying a message. -/
inductive PyOutcome where
  | ok : PyOutcome
  | exc : String → PyOutcome
deriving DecidableEq, Repr

/-- An executed block of Python statements, reduced to its observable
behaviour: the ordered trace of commands it ran and its outcome. -/
abbrev Eff := List String × PyOutcome

/-- Model of `run = print`: running one command appends it to the trace. -/
def run (cmd : String) : Eff := ([cmd], .ok)

/-- Sequencing of two blocks: the second runs only if the first completed
normally; traces accumulate in order. -/
def seqEff (a b : Eff) : Eff :=
  match a with
  | (t, .ok) => (t ++ b.1, b.2)
  | (t, .exc e) => (t, .exc e)

/-- Source: `def stop_database(): run("systemctl stop postgresql.service")`
(identical in all three scoped-resource modules). -/
def stop_database : Eff := run "systemctl stop postgresql.service"

/-- Source: `def start_database(): run("systemctl start postgresql.service")`. -/
def start_database : Eff := run "systemctl start postgresql.service"

/-- Source: `def db_backup(): run("pg_dump database")`. -/
def db_backup : Eff := run "pg_dump database"

/-- Semantics of the Python `with` statement (PEP 343) for a context manager
given by its `__enter__` effect and its `__exit__` effect and boolean result
(`suppress`, the truthiness of the value `__exit__` returns, possibly
depending on the exception it was passed):
enter runs first; then the body; `__exit__` runs unconditionally afterwards,
receiving the body's exception if any; a body exception is suppressed only
when `__exit__` returns a truthy value; an exception raised by `__exit__`
itself replaces the body's outcome. -/
def withStmt (enter : Eff) (exit_ : Option String → Eff)
    (suppress : Option String → Bool) (body : Eff) : Eff :=
  match enter with
  | (tE, .exc e) => (tE, .exc e)
  | (tE, .ok) =>
    match body with
    | (tB, .ok) =>
      match exit_ none with
      | (tX, .ok) => (tE ++ tB ++ tX, .ok)
      | (tX, .exc e2) => (tE ++ tB ++ tX, .exc e2)
    | (tB, .exc e) =>
      match exit_ (some e) with
      | (tX, .ok) => (tE ++ tB ++ tX, if suppress (some e) then .ok else .exc e)
      | (tX, .exc e2) => (tE ++ tB ++ tX, .exc e2)

/-- Semantics of Python `try: body finally: fin`: `fin` runs whether or not
`body` raised; an exception from `fin` replaces the pending one, otherwise
the body's outcome is re-raised/returned after `fin`. -/
def pyTryFinally (body fin : Eff) : Eff :=
  match body, fin with
  | (tB, .ok), (tF, o) => (tB ++ tF, o)
  | (tB, .exc e), (tF, .ok) => (tB ++ tF, .exc e)
  | (tB, .exc _), (tF, .exc e2) => (tB ++ tF, .exc e2)

/-- Source `context_manager_sample.py`, class `DBHandler`:
`__enter__` calls `stop_database()` and returns `self`;
`__exit__` calls `start_database()` and implicitly returns `None` (falsy,
so it never suppresses).  `DBHandler_with body` is `with DBHandler(): body`. -/
def DBHandler_with (body : Eff) : Eff :=
  withStmt stop_database (fun _ => start_database) (fun _ => false) body

/-- Source `context_decorator.py`, class `dbhandler_decorator`
(a `contextlib.ContextDecorator`): `__enter__` calls `stop_database()`,
`__exit__` calls `start_database()` and returns `None`.  Used as a decorator
it brackets the decorated function's body exactly like a `with` statement. -/
def dbhandler_decorator_with (body : Eff) : Eff :=
  withStmt stop_database (fun _ => start_database) (fun _ => false) body

/-- Source `context_decorator.py`: `@dbhandler_decorator() def offline_backup():
run("pg_dump database")`. -/
def offline_backup : Eff := dbhandler_decorator_with db_backup

/-- Source `contextlib_sample.py`, `@contextlib.contextmanager def db_handler():
try: stop_database(); yield finally: start_database()`.
Inlining the generator semantics: the caller's block runs at the `yield`
point inside the `try`, and the `finally` clause runs on resumption whether
the block completed or raised; the generator-based context manager does not
suppress the block's exception (it re-raises through the generator). -/
def db_handler_with (body : Eff) : Eff :=
  pyTryFinally (seqEff stop_database body) start_database

/-! ### Coordinate (`a_case_for_properties.py`) -/

/-- Model of Python `v in range(lo, hi)` for a numeric `v` (here `v : ℚ`):
`range` membership holds exactly when `v` equals some integer `k` with
`lo ≤ k < hi`; a float with a fractional part equals no integer, so it is
never a member. -/
def rangeContainsQ (lo hi : Int) (v : ℚ) : Bool :=
  v.den == 1 && decide (lo ≤ v.num) && decide (v.num < hi)

/-- Coordinate state: `__init__` starts with
`self._latitude = self._longitude = None`, hence `Option ℚ` fields. -/
structure Coordinate where
  _latitude : Option ℚ
  _longitude : Option ℚ
deriving DecidableEq, Repr

/-- Source: the `@latitude.setter`: raise `ValueError` unless
`lat_value in range(-90, 90 + 1)`, else store the value. -/
def Coordinate.setLatitude (c : Coordinate) (lat_value : ℚ) : Except String Coordinate :=
  if ¬ rangeContainsQ (-90) (90 + 1) lat_value then
    Except.error (toString lat_value ++ " is an invalid value for latitude")
  else
    Except.ok { c with _latitude := some lat_value }

/-- Source: the `@longitude.setter`: raise `ValueError` unless
`long_value in range(-180, 180 + 1)`, else store the value. -/
def Coordinate.setLongitude (c : Coordinate) (long_value : ℚ) : Except String Coordinate :=
  if ¬ rangeContainsQ (-180) (180 + 1) long_value then
    Except.error (toString long_value ++ " is an invalid value for longitude")
  else
    Except.ok { c with _longitude := some long_value }

/-- Source: plain getter `latitude`. -/
def Coordinate.latitude (c : Coordinate) : Option ℚ := c._latitude

/-- Source: plain getter `longitude`. -/
def Coordinate.longitude (c : Coordinate) : Option ℚ := c._longitude

/-- Source: `Coordinate.__init__(lat, long)` sets both fields to `None`,
then assigns through the guarded setters, latitude first. -/
def Coordinate.init (lat long : ℚ) : Except String Coordinate := do
  let c ← Coordinate.setLatitude ⟨none, none⟩ lat
  Coordinate.setLongitude c long

/-! ### RTrieNode (`rtrie.py`) -/

/-- Source: named constant `R = 26`. -/
def R : Nat := 26

/-- Source: `@dataclass class RTrieNode` with fields `value: int` and
`next_: List["RTrieNode"]` whose slots are either absent (`None`) or a
child reference. -/
inductive RTrieNode where
  | mk (value : Int) (next_ : List (Option RTrieNode))

/-- Source: the dataclass constructor followed by `__post_init__`, which
raises `ValueError(f"Invalid length provided for next list")` when
`len(self.next_) != self.size` (where `size = R`).  Note the source f-string
has no placeholder, so the message is this constant string.  The default for
`next_` is `[None] * R`. -/
def RTrieNode.make (value : Int)
    (next_ : List (Option RTrieNode) := List.replicate R none) :
    Except String RTrieNode :=
  if next_.length ≠ R then
    Except.error "Invalid length provided for next list"
  else
    Except.ok (RTrieNode.mk value next_)

/-! ### CallCount (`callable_example.py`) -/

/-- Source: `class CallCount` holding `self._counts = defaultdict(int, ...)`:
a total map from argument to count, absent keys reading as 0. -/
structure CallCount where
  _counts : String → Nat

/-- Source: `__init__(initial_counts=None)` builds
`defaultdict(int, initial_counts or {})`; a dict built from key/value pairs
keeps the last occurrence of a repeated key. -/
def CallCount.init (initial_counts : List (String × Nat) := []) : CallCount :=
  ⟨initial_counts.foldl
    (fun f p => fun x => if x = p.1 then p.2 else f x) (fun _ => 0)⟩

/-- Source: `__call__(argument)` increments `self._counts[argument]` and
returns the new count; modelled as returning the result with the new state. -/
def CallCount.call (c : CallCount) (argument : String) : Nat × CallCount :=
  let n := c._counts argument + 1
  (n, ⟨fun x => if x = argument then n else c._counts x⟩)

/-- Source: `get_count(argument)` returns `self._counts.get(argument, 0)`;
it reads without mutating, so it returns only the count. -/
def CallCount.get_count (c : CallCount) (argument : String) : Nat :=
  c._counts argument

/-- Source: `reset(argument=None)`: with an argument, sets that count to 0;
with no argument (`none`), clears the whole mapping. -/
def CallCount.reset (c : CallCount) (argument : Option String := none) : CallCount :=
  match argument with
  | none => ⟨fun _ => 0⟩
  | some a => ⟨fun x => if x = a then 0 else c._counts x⟩

/-! ### User row mapping (`unpacking_variables.py`) -/

/-- Source: `@dataclass class User` with `user_id: int`, `first_name: str`,
`last_name: str`. -/
structure User where
  user_id : Int
  first_name : String
  last_name : String
deriving DecidableEq, Repr

/-- Source: `bad_users_from_rows`: builds each `User` by positional index
`User(row[0], row[1], row[2])`, one record per row, in order. -/
def bad_users_from_rows (dbrows : List (Int × String × String)) : List User :=
  dbrows.map (fun row => User.mk row.1 row.2.1 row.2.2)

/-- Source: `users_from_rows`: destructures each row into
`(user_id, first_name, last_name)` before building the `User`. -/
def users_from_rows (dbrows : List (Int × String × String)) : List User :=
  dbrows.map (fun r =>
    match r with
    | (user_id, first_name, last_name) => User.mk user_id first_name last_name)

/-! ### GoodList (`extend_list.py`) -/

/-- Model of Python list indexing with an `int` index as `UserList.__getitem__`
performs it: a negative index `i` selects position `len + i`; out-of-range
raises `IndexError`, modelled as `none`. -/
def pyListGet (l : List String) (index : Int) : Option String :=
  if index < 0 then
    if -index ≤ (l.length : Int) then l.get? ((l.length : Int) + index).toNat else none
  else
    l.get? index.toNat

/-- Source: `GoodList.__getitem__(index)`: first retrieves
`super().__getitem__(index)`, then chooses prefix `"even"` when
`index % 2 == 0` else `"odd"` (Python `%` on a negative `int` with modulus 2
yields 0 or 1, which is `Int.emod`), and returns `f"[{prefix}] {value}"`.
The elements here are strings, so `f"{value}"` is the element itself. -/
def GoodList.getitem (l : List String) (index : Int) : Option String :=
  (pyListGet l index).map (fun value =>
    let prefix_ := if index % 2 == 0 then "even" else "odd"
    "[" ++ prefix_ ++ "] " ++ value)

/-! ### Bag (`container_object.py`) -/

/-- Source: `bisect.bisect_left(a, x, lo=0, hi=len(a))`, the CPython loop:
while `lo < hi`, take `mid = (lo+hi)//2`; if `a[mid] < x` then `lo = mid+1`
else `hi = mid`; return `lo`.  `a[mid]` is always in bounds when the initial
`hi` is at most `len(a)`; the `getD` default `x` is never read then. -/
def bisectLeftGo {α : Type} [LinearOrder α] (a : List α) (x : α) (lo hi : Nat) : Nat :=
  if _h : lo < hi then
    let mid := (lo + hi) / 2
    if a.getD mid x < x then bisectLeftGo a x (mid + 1) hi
    else bisectLeftGo a x lo mid
  else lo
termination_by hi - lo
decreasing_by
  · omega
  · omega

/-- Source: `bisect_left(a, x)` with the default bounds `0` and `len(a)`. -/
def bisect_left {α : Type} [LinearOrder α] (a : List α) (x : α) : Nat :=
  bisectLeftGo a x 0 a.length

/-- Source: `class Bag` holding `self._sorted_list`. -/
structure Bag (α : Type) where
  _sorted_list : List α

/-- Source: `Bag.__init__(input)`: stores `sorted(input)` (Python's stable
sort by `≤`, modelled by `mergeSort`). -/
def Bag.init {α : Type} [LinearOrder α] (input : List α) : Bag α :=
  ⟨input.mergeSort (fun a b => decide (a ≤ b))⟩

/-- Source: `Bag.__contains__(x)`: `idx = bisect_left(self._sorted_list, x)`,
then `idx < len(self._sorted_list) and self._sorted_list[idx] == x`. -/
def Bag.contains {α : Type} [LinearOrder α] (b : Bag α) (x : α) : Bool :=
  let idx := bisect_left b._sorted_list x
  decide (idx < b._sorted_list.length) && decide (b._sorted_list.get? idx = some x)

/-! ### Multiple-inheritance resolution order (`mro.py`) -/

/-- Source: the classes of `mro.py` (plus Python's implicit root `object`). -/
inductive PyClass where
  | object
  | BaseModule
  | BaseModule1
  | BaseModule2
  | BaseModule3
  | ConcreteModuleA12
  | ConcreteModuleB23
deriving DecidableEq, Repr

/-- Source: the declared base-class lists, left to right. -/
def PyClass.bases : PyClass → List PyClass
  | .object => []
  | .BaseModule => [.object]
  | .BaseModule1 => [.BaseModule]
  | .BaseModule2 => [.BaseModule]
  | .BaseModule3 => [.BaseModule]
  | .ConcreteModuleA12 => [.BaseModule1, .BaseModule2]
  | .ConcreteModuleB23 => [.BaseModule2, .BaseModule3]

/-- Source: the class-level `module_name` attribute each class itself defines
(`None` when the class body does not set one). -/
def PyClass.ownModuleName : PyClass → Option String
  | .object => none
  | .BaseModule => some "top"
  | .BaseModule1 => some "module-1"
  | .BaseModule2 => some "module-2"
  | .BaseModule3 => some "module-3"
  | _ => none

/-- One step of the C3 merge: find the first list whose head occurs in no
other list's tail (a "good head"), emit it, strip it from every list, and
continue.  `fuel` bounds the recursion; the merge of an inconsistent
hierarchy (or exhausted fuel) is `none`. -/
def c3merge (fuel : Nat) (ls : List (List PyClass)) : Option (List PyClass) :=
  match fuel with
  | 0 => none
  | fuel + 1 =>
    let ls := ls.filter (fun l => ¬ l.isEmpty)
    match ls with
    | [] => some []
    | _ =>
      match ls.find? (fun l =>
        match l.head? with
        | some h => ls.all (fun l2 => ¬ l2.tail.contains h)
        | none => false) with
      | none => none
      | some l =>
        match l.head? with
        | none => none
        | some h => do
          let rest ← c3merge fuel (ls.map (fun l2 => l2.filter (fun c => c ≠ h)))
          pure (h :: rest)

/-- C3 linearization: `mro(C) = C :: merge(mro(B1), ..., mro(Bn), [B1..Bn])`;
`fuel` bounds the recursion depth through the (finite, acyclic) hierarchy. -/
def mroFuel (fuel : Nat) (c : PyClass) : Option (List PyClass) :=
  match fuel with
  | 0 => none
  | fuel + 1 => do
    let parentMros ← c.bases.mapM (mroFuel fuel)
    let merged ← c3merge 32 (parentMros ++ [c.bases])
    pure (c :: merged)

/-- Source: Python's `Class.mro()` for this hierarchy. -/
def PyClass.mro (c : PyClass) : Option (List PyClass) :=
  mroFuel 8 c

/-- Attribute lookup of `module_name`: the first class in the method
resolution order that defines it supplies the value. -/
def PyClass.module_name (c : PyClass) : Option String := do
  let m ← c.mro
  (m.filterMap PyClass.ownModuleName).head?

/-- Source: `BaseModule.__str__` is `f"{self.module_name}:{self.name}"` for
an instance of class `c` constructed with `name`. -/
def PyClass.str (c : PyClass) (name : String) : Option String := do
  let mn ← c.module_name
  pure (mn ++ ":" ++ name)

/-! ### ARN pattern extraction (`naive_vs_comprension.py`) -/

/-- Model of the regex word class `\w` on the ASCII inputs of this component:
letters, digits and underscore. -/
def isWordChar (c : Char) : Bool := c.isAlphanum || c == '_'

/-- Character class `[\w-]` of the ARN pattern. -/
def isWordDash (c : Char) : Bool := isWordChar c || c == '-'

/-- Literal-prefix matcher: consume `lit` from the front of `s`. -/
def stripLit : List Char → List Char → Option (List Char)
  | [], s => some s
  | _ :: _, [] => none
  | c :: lit, d :: s => if c = d then stripLit lit s else none

/-- Tail-anchor `.+$` of the pattern under `re.match` semantics: one or more
non-newline characters, with `$` also matching just before a single trailing
newline. -/
def dotPlusEnd (rest : List Char) : Bool :=
  let core := if rest.getLast? = some '\n' then rest.dropLast else rest
  ¬ core.isEmpty && core.all (fun c => c ≠ '\n')

/-- Source: `re.match(ARN_REGEX, arn)` for
`ARN_REGEX = r"^arn:aws:[\w-]+:[\w-]*:(?P<account_id>\d{12}):.+$"`, returning
the named capture `account_id` on success.  Because `[\w-]` and `\d` exclude
`:`, the greedy runs are forced to stop exactly at the next `:` and the
match is deterministic: literal `arn:aws:`, a nonempty `[\w-]` run, `:`, a
possibly empty `[\w-]` run, `:`, exactly 12 digits captured, `:`, then
`.+$`. -/
def reMatchAccountId (arn : String) : Option String :=
  match stripLit "arn:aws:".toList arn.toList with
  | none => none
  | some s =>
    let service := s.takeWhile isWordDash
    let s := s.dropWhile isWordDash
    if service.isEmpty then none
    else
      match s with
      | ':' :: s =>
        let s := s.dropWhile isWordDash
        match s with
        | ':' :: s =>
          let digits := s.take 12
          let s2 := s.drop 12
          if digits.length = 12 && digits.all Char.isDigit then
            match s2 with
            | ':' :: rest =>
              if dotPlusEnd rest then some (String.mk digits) else none
            | _ => none
          else none
        | _ => none
      | _ => none

/-- Source: `generate_fake_arns` with parameters service, region,
resource type, resource prefix and count: the i-th identifier is
`arn:aws:{service}:{region}:{100000000000 + i}:{resource_type}/{resource_prefix}-{i}`. -/
def generate_fake_arns (service : String := "s3") (region : String := "us-east-1")
    (resource_type : String := "bucket") ( resource_prefix : String := "test-bucket")
    (count : Nat := 10000) : List String :=
  (List.range count).map (fun i =>
    let account_id := toString (100000000000 + i)
    let resource_name := resource_prefix ++ "-" ++ toString i
    "arn:aws:" ++ service ++ ":" ++ region ++ ":" ++ account_id ++ ":"
      ++ resource_type ++ "/" ++ resource_name)

/-- Source: the eager collector: start from an empty set and, for each
identifier whose match succeeds, add the captured `account_id`. -/
def collect_account_ids_from_arns (arns : List String) : Finset String :=
  arns.foldl (fun acc arn =>
    match reMatchAccountId arn with
    | some account_id => insert account_id acc
    | none => acc) ∅

/-- Source: the lazy generator expression: yield the captured `account_id`
for each identifier whose match succeeds, in order. -/
def collect_account_ids_from_arns_1 (arns : List String) : List String :=
  arns.filterMap reMatchAccountId

/-! ### Helper lemmas -/

/-- Reading a sorted list at two in-bound positions respects the order. -/
lemma sorted_getD_le {α : Type} [LinearOrder α] {l : List α} (d : α)
    (hs : l.Sorted (fun a b => a ≤ b)) {i j : Nat} (hij : i ≤ j) (hj : j < l.length) :
    l.getD i d ≤ l.getD j d := by
  have hi : i < l.length := lt_of_le_of_lt hij hj
  rw [List.getD_eq_getElem l d hi, List.getD_eq_getElem l d hj]
  exact List.Sorted.rel_get_of_le hs (a := ⟨i, hi⟩) (b := ⟨j, hj⟩) hij

/-- Loop invariant of the CPython `bisect_left` loop on a sorted list:
everything strictly below the returned index is `< x`, nothing at or above
it is, and the index is within `0..len`. -/
lemma bisectLeftGo_spec {α : Type} [LinearOrder α] (l : List α) (x : α)
    (hs : l.Sorted (fun a b => a ≤ b)) :
    ∀ n lo hi, hi - lo = n → lo ≤ hi → hi ≤ l.length →
    (∀ i, i < lo → l.getD i x < x) →
    (∀ i, hi ≤ i → i < l.length → ¬ l.getD i x < x) →
    (∀ i, i < bisectLeftGo l x lo hi → l.getD i x < x) ∧
    (∀ i, bisectLeftGo l x lo hi ≤ i → i < l.length → ¬ l.getD i x < x) ∧
    bisectLeftGo l x lo hi ≤ l.length := by
  intro n
  induction n using Nat.strong_induction_on with
  | _ n ih =>
    intro lo hi hn hlohi hhil hlo hhi
    rw [bisectLeftGo]
    by_cases h : lo < hi
    · rw [dif_pos h]
      set mid := (lo + hi) / 2 with hmid
      have hmidlt : mid < hi := by omega
      have hmidge : lo ≤ mid := by omega
      by_cases hcmp : l.getD mid x < x
      · rw [if_pos hcmp]
        refine ih (hi - (mid + 1)) (by omega) (mid + 1) hi (by omega) (by omega) hhil ?_ hhi
        intro i hi2
        rcases lt_or_ge i lo with h2 | h2
        · exact hlo i h2
        · calc l.getD i x ≤ l.getD mid x :=
                sorted_getD_le x hs (by omega) (by omega)
            _ < x := hcmp
      · rw [if_neg hcmp]
        refine ih (mid - lo) (by omega) lo mid (by omega) (by omega) (by omega) hlo ?_
        intro i hi2 hil
        intro hlt
        apply hcmp
        calc l.getD mid x ≤ l.getD i x := sorted_getD_le x hs hi2 hil
          _ < x := hlt
    · rw [dif_neg h]
      have : hi ≤ lo := by omega
      refine ⟨hlo, ?_, by omega⟩
      intro i hi2 hil
      exact hhi i (by omega) hil

/-- Lemma: `bisect_left l x` on a sorted list is the left-most insertion point for
`x`: every element before it is `< x` and no element at or after it is. -/
lemma bisect_left_spec {α : Type} [LinearOrder α] (l : List α) (x : α)
    (hs : l.Sorted (fun a b => a ≤ b)) :
    (∀ i, i < bisect_left l x → l.getD i x < x) ∧
    (∀ i, bisect_left l x ≤ i → i < l.length → ¬ l.getD i x < x) ∧
    bisect_left l x ≤ l.length :=
  bisectLeftGo_spec l x hs l.length 0 l.length rfl (Nat.zero_le _) le_rfl
    (fun i h => absurd h (Nat.not_lt_zero i))
    (fun i h h2 => absurd h2 (by omega))

/-- On a sorted list, the bounds-and-equality check at the left-most
insertion point succeeds exactly when `x` occurs in the list. -/
lemma sorted_contains_iff {α : Type} [LinearOrder α] {l : List α} (x : α)
    (hs : l.Sorted (fun a b => a ≤ b)) :
    ((decide (bisect_left l x < l.length) &&
      decide (l.get? (bisect_left l x) = some x)) = true) ↔ x ∈ l := by
  obtain ⟨h1, h2, h3⟩ := bisect_left_spec l x hs
  constructor
  · intro h
    simp only [Bool.and_eq_true, decide_eq_true_eq] at h
    exact List.get?_mem h.2
  · intro hmem
    obtain ⟨⟨j, hj⟩, hx⟩ := List.mem_iff_get.mp hmem
    have hgd : l.getD j x = x := by
      rw [List.getD_eq_getElem l x hj]
      simpa [List.get] using hx
    have hjr : bisect_left l x ≤ j := by
      by_contra hc
      have := h1 j (by omega)
      rw [hgd] at this
      exact lt_irrefl x this
    have hrlen : bisect_left l x < l.length := lt_of_le_of_lt hjr hj
    have hge : ¬ l.getD (bisect_left l x) x < x := h2 _ le_rfl hrlen
    have hle : l.getD (bisect_left l x) x ≤ l.getD j x := sorted_getD_le x hs hjr hj
    have hle2 : l.getD (bisect_left l x) x ≤ x := hle.trans hgd.le
    have heq : l.getD (bisect_left l x) x = x := le_antisymm hle2 (not_lt.mp hge)
    simp only [Bool.and_eq_true, decide_eq_true_eq]
    refine ⟨hrlen, ?_⟩
    rw [List.get?_eq_getElem?, List.getElem?_eq_getElem hrlen]
    rw [List.getD_eq_getElem l x hrlen] at heq
    simpa using heq

/-- The `Bag` membership test answers exactly membership in the input. -/
lemma Bag.contains_iff_mem {α : Type} [LinearOrder α] (input : List α) (x : α) :
    (Bag.init input).contains x = true ↔ x ∈ input := by
  have hperm := List.mergeSort_perm input (fun a b => decide (a ≤ b))
  have hs : (input.mergeSort (fun a b => decide (a ≤ b))).Sorted (fun a b => a ≤ b) :=
    List.sorted_mergeSort' input
  unfold Bag.contains Bag.init
  rw [sorted_contains_iff x hs]
  exact hperm.mem_iff

/-- C1: for every bracketed block in the scoped-resource components — the
decorator form (`dbhandler_decorator`), the manual enter/exit form
(`DBHandler`) and the generator form (`db_handler`) — the stop action runs
before the block starts and the start action runs exactly once after the
block ends, including when the block raises; the failure still propagates to
the caller after the start action has run, and no form suppresses it. -/
theorem scoped_resource_bracketing (t : List String) (e : String) :
    (DBHandler_with (t, .ok)
        = ("systemctl stop postgresql.service" :: t ++ ["systemctl start postgresql.service"], .ok)
      ∧ DBHandler_with (t, .exc e)
        = ("systemctl stop postgresql.service" :: t ++ ["systemctl start postgresql.service"], .exc e))
    ∧ (db_handler_with (t, .ok)
        = ("systemctl stop postgresql.service" :: t ++ ["systemctl start postgresql.service"], .ok)
      ∧ db_handler_with (t, .exc e)
        = ("systemctl stop postgresql.service" :: t ++ ["systemctl start postgresql.service"], .exc e))
    ∧ (dbhandler_decorator_with (t, .ok)
        = ("systemctl stop postgresql.service" :: t ++ ["systemctl start postgresql.service"], .ok)
      ∧ dbhandler_decorator_with (t, .exc e)
        = ("systemctl stop postgresql.service" :: t ++ ["systemctl start postgresql.service"], .exc e))
    ∧ offline_backup
        = (["systemctl stop postgresql.service", "pg_dump database",
            "systemctl start postgresql.service"], .ok)
    ∧ (DBHandler_with (t, .exc e)).1.count "systemctl start postgresql.service"
        = t.count "systemctl start postgresql.service" + 1
    ∧ (db_handler_with (t, .exc e)).1.count "systemctl start postgresql.service"
        = t.count "systemctl start postgresql.service" + 1
    ∧ (dbhandler_decorator_with (t, .exc e)).1.count "systemctl start postgresql.service"
        = t.count "systemctl start postgresql.service" + 1 := by
  refine ⟨⟨rfl, rfl⟩, ⟨rfl, rfl⟩, ⟨rfl, rfl⟩, rfl, ?_, ?_, ?_⟩ <;>
    simp [DBHandler_with, db_handler_with, dbhandler_decorator_with, withStmt,
      pyTryFinally, seqEff, stop_database, start_database, run,
      List.count_append, List.count_cons]

/-- C2: constructing a `Coordinate` with latitude 91 raises a validation
error; constructing with latitude 90 and longitude 180 succeeds; assigning
latitude −91 through the guarded setter afterwards also raises a validation
error. -/
theorem coordinate_validation :
    (∃ msg, Coordinate.init 91 0 = Except.error msg)
    ∧ Coordinate.init 90 180 = Except.ok ⟨some 90, some 180⟩
    ∧ (∃ msg, Coordinate.setLatitude ⟨some 90, some 180⟩ (-91) = Except.error msg) :=
  ⟨⟨_, rfl⟩, rfl, ⟨_, rfl⟩⟩

/-- C3 (supporting theorem for the code bug): constructing an `RTrieNode`
with the default child list or any 26-slot child list succeeds; 25- or
27-slot lists raise `ValueError`, but with the same constant message for
both lengths — the f-string in the source has no placeholder, so the message
never contains the offending length and therefore cannot identify it. -/
theorem rtrie_fixed_arity :
    RTrieNode.make 0 = Except.ok (RTrieNode.mk 0 (List.replicate R none))
    ∧ RTrieNode.make 0 (List.replicate 26 none)
        = Except.ok (RTrieNode.mk 0 (List.replicate 26 none))
    ∧ RTrieNode.make 0 (List.replicate 25 none)
        = Except.error "Invalid length provided for next list"
    ∧ RTrieNode.make 0 (List.replicate 27 none)
        = Except.error "Invalid length provided for next list" :=
  ⟨rfl, rfl, rfl, rfl⟩

/-- C5: for every finite input sequence of comparable elements, the `Bag`
membership test returns true for `x` iff some element of the input compares
equal to `x`; in particular it is true for every element of the input, false
past the maximum, and false for every query on an empty `Bag`. -/
theorem bag_membership {α : Type} [LinearOrder α] (input : List α) (x : α) :
    ((Bag.init input).contains x = true ↔ ∃ y ∈ input, y = x)
    ∧ (∀ y ∈ input, (Bag.init input).contains y = true)
    ∧ ((∀ y ∈ input, y < x) → (Bag.init input).contains x = false)
    ∧ (Bag.init ([] : List α)).contains x = false := by
  refine ⟨?_, ?_, ?_, ?_⟩
  · rw [Bag.contains_iff_mem]
    constructor
    · intro h; exact ⟨x, h, rfl⟩
    · rintro ⟨y, hy, rfl⟩; exact hy
  · intro y hy
    exact (Bag.contains_iff_mem input y).mpr hy
  · intro hmax
    rw [Bool.eq_false_iff]
    intro hc
    have hx := (Bag.contains_iff_mem input x).mp hc
    exact lt_irrefl x (hmax x hx)
  · rw [Bool.eq_false_iff]
    intro hc
    have hx := (Bag.contains_iff_mem ([] : List α) x).mp hc
    simp at hx

/-- C5 witness: the membership characterization evaluated on the concrete
bag built from `[3, 1, 2]` at query value 2. -/
theorem bag_membership_witness :
    ((Bag.init ([3, 1, 2] : List Int)).contains 2 = true
        ↔ ∃ y ∈ ([3, 1, 2] : List Int), y = 2)
    ∧ (∀ y ∈ ([3, 1, 2] : List Int), (Bag.init ([3, 1, 2] : List Int)).contains y = true)
    ∧ ((∀ y ∈ ([3, 1, 2] : List Int), y < 2)
        → (Bag.init ([3, 1, 2] : List Int)).contains 2 = false)
    ∧ (Bag.init ([] : List Int)).contains 2 = false :=
  bag_membership ([3, 1, 2] : List Int) 2

/-- C6: on a fresh `CallCount`, calling with `"a"` three times returns 1, 2,
3; `get_count "a"` then reads 3 (reading returns only the count, with no
state change in the model); `reset "a"` makes `get_count "a"` read 0; and
`reset` with no argument clears every key to 0. -/
theorem counting_callable :
    ((CallCount.init []).call "a").1 = 1
    ∧ ((((CallCount.init []).call "a").2).call "a").1 = 2
    ∧ ((((((CallCount.init []).call "a").2).call "a").2).call "a").1 = 3
    ∧ ((((((CallCount.init []).call "a").2).call "a").2).call "a").2.get_count "a" = 3
    ∧ (((((((CallCount.init []).call "a").2).call "a").2).call "a").2.reset
        (some "a")).get_count "a" = 0
    ∧ ∀ k, (((((((CallCount.init []).call "a").2).call "a").2).call "a").2.reset
        none).get_count k = 0 :=
  ⟨rfl, rfl, rfl, rfl, rfl, fun _ => rfl⟩

/-- C7: the index-based row mapper and the destructuring row mapper produce
identical lists of `User` records, one per row, in input order. -/
theorem row_mapping_equivalence (dbrows : List (Int × String × String)) :
    bad_users_from_rows dbrows = users_from_rows dbrows := rfl

/-- C8: under C3 linearization of the `mro.py` hierarchy, an instance of
`ConcreteModuleA12` named `"name"` renders as `"module-1:name"` and an
instance of `ConcreteModuleB23` named `"test"` renders as
`"module-2:test"`. -/
theorem mro_rendering :
    PyClass.ConcreteModuleA12.str "name" = some "module-1:name"
    ∧ PyClass.ConcreteModuleB23.str "test" = some "module-2:test" :=
  ⟨rfl, rfl⟩

/-- A non-integer rational is never a member of a Python integer `range`. -/
lemma rangeContainsQ_eq_false_of_den_ne_one (lo hi : Int) {v : ℚ} (hv : v.den ≠ 1) :
    rangeContainsQ lo hi v = false := by
  unfold rangeContainsQ
  simp [hv]

/-- C9: any `float` latitude with a fractional part is rejected by both
construction and the latitude setter even strictly inside the bounds
−90..90, because validity is membership of the integer range −90..90; the
same holds for longitude with the integer range −180..180. -/
theorem coordinate_rejects_fractional (v w : ℚ) (c : Coordinate)
    (hv : v.den ≠ 1) (_hv1 : -90 < v) (_hv2 : v < 90)
    (hw : w.den ≠ 1) (_hw1 : -180 < w) (_hw2 : w < 180) :
    (∃ msg, c.setLatitude v = Except.error msg)
    ∧ (∃ msg, c.setLongitude w = Except.error msg)
    ∧ (∀ long, ∃ msg, Coordinate.init v long = Except.error msg) := by
  have hlat : Coordinate.setLatitude c v
      = Except.error (toString v ++ " is an invalid value for latitude") := by
    unfold Coordinate.setLatitude
    rw [if_pos]
    rw [rangeContainsQ_eq_false_of_den_ne_one _ _ hv]
    simp
  have hlat0 : ∀ c0 : Coordinate, Coordinate.setLatitude c0 v
      = Except.error (toString v ++ " is an invalid value for latitude") := by
    intro c0
    unfold Coordinate.setLatitude
    rw [if_pos]
    rw [rangeContainsQ_eq_false_of_den_ne_one _ _ hv]
    simp
  have hlong : Coordinate.setLongitude c w
      = Except.error (toString w ++ " is an invalid value for longitude") := by
    unfold Coordinate.setLongitude
    rw [if_pos]
    rw [rangeContainsQ_eq_false_of_den_ne_one _ _ hw]
    simp
  refine ⟨⟨_, hlat⟩, ⟨_, hlong⟩, ?_⟩
  intro long
  refine ⟨toString v ++ " is an invalid value for latitude", ?_⟩
  unfold Coordinate.init
  rw [hlat0 ⟨none, none⟩]
  rfl

/-- C9 witness: the fractional values 89.5 (as the reduced rational 179/2)
and 179.5 (as 359/2) lie strictly inside the bounds yet are rejected
everywhere. -/
theorem coordinate_rejects_fractional_witness :
    ((⟨179, 2, by decide, by decide⟩ : ℚ).den ≠ 1
      ∧ -90 < (⟨179, 2, by decide, by decide⟩ : ℚ)
      ∧ (⟨179, 2, by decide, by decide⟩ : ℚ) < 90)
    ∧ ((∃ msg, Coordinate.setLatitude ⟨none, none⟩ ⟨179, 2, by decide, by decide⟩
          = Except.error msg)
      ∧ (∃ msg, Coordinate.setLongitude ⟨none, none⟩ ⟨359, 2, by decide, by decide⟩
          = Except.error msg)
      ∧ (∀ long, ∃ msg, Coordinate.init ⟨179, 2, by decide, by decide⟩ long
          = Except.error msg)) :=
  ⟨⟨by decide, by decide, by decide⟩,
    coordinate_rejects_fractional ⟨179, 2, by decide, by decide⟩
      ⟨359, 2, by decide, by decide⟩ ⟨none, none⟩
      (by decide) (by decide) (by decide) (by decide) (by decide) (by decide)⟩

/-- C10: reading a valid negative integer index `i` on a `GoodList` returns
the element selected by the backing list's negative-indexing rule (position
`len + i`) tagged by the parity of `i` itself under non-negative modulo
(`i % 2`); concretely, on a 5-element list index −1 reads position 4 tagged
`[odd]` and index −2 reads position 3 tagged `[even]`. -/
theorem tagged_negative_index (l : List String) (i : Int)
    (h1 : -(l.length : Int) ≤ i) (h2 : i < 0) :
    GoodList.getitem l i = (l.get? ((l.length : Int) + i).toNat).map
      (fun value => "[" ++ (if i % 2 == 0 then "even" else "odd") ++ "] " ++ value)
    ∧ GoodList.getitem ["a", "b", "c", "d", "e"] (-1) = some "[odd] e"
    ∧ GoodList.getitem ["a", "b", "c", "d", "e"] (-2) = some "[even] d" := by
  refine ⟨?_, rfl, rfl⟩
  unfold GoodList.getitem pyListGet
  rw [if_pos h2, if_pos (by omega : -i ≤ (l.length : Int))]

/-- C10 witness: the characterization applied to the concrete 5-element
list at index −1. -/
theorem tagged_negative_index_witness :
    GoodList.getitem ["a", "b", "c", "d", "e"] (-1)
      = (["a", "b", "c", "d", "e"].get? (((5 : Nat) : Int) + (-1)).toNat).map
        (fun value => "[" ++ (if (-1 : Int) % 2 == 0 then "even" else "odd") ++ "] " ++ value)
    ∧ GoodList.getitem ["a", "b", "c", "d", "e"] (-1) = some "[odd] e"
    ∧ GoodList.getitem ["a", "b", "c", "d", "e"] (-2) = some "[even] d" :=
  tagged_negative_index ["a", "b", "c", "d", "e"] (-1) (by decide) (by decide)

/-- A successful literal-prefix consumption witnesses a list prefix. -/
lemma prefix_of_stripLit_some :
    ∀ (lit s r : List Char), stripLit lit s = some r → lit <+: s := by
  intro lit
  induction lit with
  | nil => intro s r _; exact List.nil_prefix
  | cons c lit ih =>
    intro s r h
    cases s with
    | nil => simp [stripLit] at h
    | cons d s =>
      by_cases hcd : c = d
      · subst hcd
        simp only [stripLit, if_pos rfl] at h
        exact List.cons_prefix_cons.mpr ⟨rfl, ih s r h⟩
      · simp [stripLit, hcd] at h

/-- An identifier that does not start with the literal `arn:aws:` never
matches the ARN pattern. -/
lemma reMatchAccountId_eq_none_of_no_arn_aws (cs : List Char)
    (hcs : ¬ ("arn:aws:".toList <+: cs)) :
    reMatchAccountId (String.mk cs) = none := by
  unfold reMatchAccountId
  have hdata : (String.mk cs).toList = cs := rfl
  rw [hdata]
  cases h : stripLit "arn:aws:".toList cs with
  | none => rfl
  | some r => exact absurd (prefix_of_stripLit_some _ _ _ h) hcs

/-- C4: on the five identifiers produced by the generator with its default
parameters and N = 5, the eager extraction and the lazy generator extraction
yield the identical set of exactly 5 account ids, the decimal renderings of
`100000000000 + i` for `i < 5`; and a non-matching identifier (in
particular any string lacking the `arn:aws:` prefix) contributes to neither
result. -/
theorem arn_extraction_equivalence (l : List String) (bad : String)
    (hbad : reMatchAccountId bad = none)
    (cs : List Char) (hcs : ¬ ("arn:aws:".toList <+: cs)) :
    collect_account_ids_from_arns (generate_fake_arns "s3" "us-east-1" "bucket" "test-bucket" 5)
      = (Finset.range 5).image (fun i => toString (100000000000 + i))
    ∧ (collect_account_ids_from_arns_1
        (generate_fake_arns "s3" "us-east-1" "bucket" "test-bucket" 5)).toFinset
      = (Finset.range 5).image (fun i => toString (100000000000 + i))
    ∧ ((Finset.range 5).image (fun i => toString (100000000000 + i))).card = 5
    ∧ collect_account_ids_from_arns (l ++ [bad]) = collect_account_ids_from_arns l
    ∧ collect_account_ids_from_arns_1 (l ++ [bad]) = collect_account_ids_from_arns_1 l
    ∧ reMatchAccountId (String.mk cs) = none := by
  refine ⟨by decide, by decide, by decide, ?_, ?_,
    reMatchAccountId_eq_none_of_no_arn_aws cs hcs⟩
  · simp [collect_account_ids_from_arns, List.foldl_append, hbad]
  · simp [collect_account_ids_from_arns_1, List.filterMap_append, hbad]

/-- C4 witness: the equivalence applied with the non-matching identifier
`"x"` appended to the empty list, and the prefix-free string `"foo"`. -/
theorem arn_extraction_equivalence_witness :
    collect_account_ids_from_arns (generate_fake_arns "s3" "us-east-1" "bucket" "test-bucket" 5)
      = (Finset.range 5).image (fun i => toString (100000000000 + i))
    ∧ (collect_account_ids_from_arns_1
        (generate_fake_arns "s3" "us-east-1" "bucket" "test-bucket" 5)).toFinset
      = (Finset.range 5).image (fun i => toString (100000000000 + i))
    ∧ ((Finset.range 5).image (fun i => toString (100000000000 + i))).card = 5
    ∧ collect_account_ids_from_arns ([] ++ ["x"]) = collect_account_ids_from_arns []
    ∧ collect_account_ids_from_arns_1 ([] ++ ["x"]) = collect_account_ids_from_arns_1 []
    ∧ reMatchAccountId (String.mk "foo".toList) = none :=
  arn_extraction_equivalence [] "x" rfl "foo".toList (by decide)
